import Mathlib

/-!
# Verification of the bingo client's card generation, pattern matching and
# game-lifecycle code

This file gives a shallow embedding of the JavaScript sources
(`js/game-engine.js`, `js/card-manager.js`, `js/config.js`) and proves or
refutes the specification's claims about them.

Modelling conventions:

* JavaScript numbers are modelled by `Nat`; all the arithmetic involved
  (seeds up to `400 * 123456789 + …`) stays far below `2^53`, where
  JavaScript doubles are exact, and all operands are non-negative.
* A card grid is `Fin 5 → Fin 5 → Option Nat`; `none` is the `'FREE'`
  sentinel, `some v` a number cell.  `grid r c` is `numbers[r][c]`.
* `Math.sin`-based pseudo-randomness cannot be embedded exactly (it is
  floating point).  The sine-hash generator of `game-engine.js`
  (`generateCardNumbers`) is therefore modelled *parametrically* in the
  sampler: the code computes
  `num = Math.floor(rand * (max - min + 1)) + range.min`
  with `rand ∈ [0,1)`, so whatever `Math.sin` returns, the candidate for
  column `c` at within-column draw count `k` is `min c + f c k` for some
  function `f c k : Fin 15`.  Every theorem about this generator is
  proved for an arbitrary sampler `f`, so it holds in particular for the
  real sine hash.
* The `while (columnNumbers.size < 5)` loop of `generateCardNumbers` is
  modelled by a fuel-indexed small-step loop (`sampleLoop`); returning
  `none` at every fuel corresponds to the JavaScript loop never
  terminating.
* JavaScript `Set` objects are modelled by lists with guarded insertion
  (which keeps them duplicate-free in exactly the way insertion into a
  `Set` does); `Array.prototype.sort` on distinct numbers is modelled by
  `List.insertionSort (· ≤ ·)`, which computes the same (unique) sorted
  permutation.
-/

namespace Bingo

/-- `Config.BINGO_CARD.COLUMN_RANGES[letter].min` (config.js): the lower
bound of each of the B/I/N/G/O columns. -/
def colMin (c : Fin 5) : Nat := 1 + 15 * (c : Nat)

/-- `Config.BINGO_CARD.COLUMN_RANGES[letter].max` (config.js): the upper
bound of each of the B/I/N/G/O columns. -/
def colMax (c : Fin 5) : Nat := 15 * ((c : Nat) + 1)

/-- A 5×5 bingo card grid; `none` is the `'FREE'` cell. -/
def Grid : Type := Fin 5 → Fin 5 → Option Nat

/-! ## The modulo-based generator

`CardManager.generateColumnNumber` (card-manager.js, lines 215–222):

```js
const base = seed + (cardNumber * 100) + (columnIndex * 10) + rowIndex;
const range = columnRules.max - columnRules.min + 1;
const number = columnRules.min + (Math.abs(base) % range);
```

All quantities are non-negative, so `Math.abs` is the identity. -/

def cmGenerateColumnNumber (seed cardNumber columnIndex rowIndex rmin rmax : Nat) :
    Nat :=
  rmin + ((seed + cardNumber * 100 + columnIndex * 10 + rowIndex) % (rmax - rmin + 1))

/-- `GameEngine.generateColumnNumber` (game-engine.js, lines 1196–1201), the
second engine's copy of the formula ("consistent with card-manager"). -/
def geGenerateColumnNumber (seed cardNumber columnIndex rowIndex rmin rmax : Nat) :
    Nat :=
  rmin + ((seed + cardNumber * 100 + columnIndex * 10 + rowIndex) % (rmax - rmin + 1))

/-- The grid of `CardManager.generateCardData` (card-manager.js,
lines 159–205): `seed = cardNumber * 123456789`, a `FREE` cell at
`CARD_RULES.FREE_SPACE_POSITION = [2, 2]`, every other cell computed by
`generateColumnNumber`. -/
def cmGrid (cardNumber : Nat) : Grid := fun r c =>
  if r = 2 ∧ c = 2 then none
  else some (cmGenerateColumnNumber (cardNumber * 123456789) cardNumber c r
    (colMin c) (colMax c))

/-- The grid of the second engine's `generateCardData` (game-engine.js,
lines 1150–1194): identical layout, numbers from its own
`generateColumnNumber`. -/
def geModuloGrid (cardNumber : Nat) : Grid := fun r c =>
  if r = 2 ∧ c = 2 then none
  else some (geGenerateColumnNumber (cardNumber * 123456789) cardNumber c r
    (colMin c) (colMax c))

/-! ## The sine-hash generator (game-engine.js, lines 82–118)

```js
const seed = cardId * 123456789;
const random = (seed) => { const x = Math.sin(seed) * 10000; return x - Math.floor(x); };
Object.keys(ranges).forEach((letter, colIndex) => {
  const columnNumbers = new Set();
  while (columnNumbers.size < 5) {
    const rand = random(seed + colIndex * 100 + columnNumbers.size * 10);
    const num = Math.floor(rand * (range.max - range.min + 1)) + range.min;
    columnNumbers.add(num);
  }
  const sortedNumbers = Array.from(columnNumbers).sort((a, b) => a - b);
  ...
});
numbers[2][2] = 'FREE';
```

`f c k : Fin 15` models `Math.floor(rand * 15)` at column `c` and
within-column draw count `k = columnNumbers.size`; the candidate number is
`colMin c + f c k`.  The loop state is the insertion-ordered list of the
set's elements. -/

/-- One iteration of the `while (columnNumbers.size < 5)` body: sample the
candidate for the *current* set size and insert it (a duplicate leaves the
set unchanged). -/
def sampleStep (f : Nat → Fin 15) (lo : Nat) (s : List Nat) : List Nat :=
  if lo + (f s.length : Nat) ∈ s then s else s ++ [lo + (f s.length : Nat)]

/-- The sampling loop with fuel; `none` models non-termination of the
JavaScript `while` loop within the given number of iterations.  On exit the
collected numbers are sorted ascending (`Array.from(set).sort`). -/
def sampleLoop (f : Nat → Fin 15) (lo : Nat) : Nat → List Nat → Option (List Nat)
  | 0, _ => none
  | fuel + 1, s =>
    if 5 ≤ s.length then some (s.insertionSort (· ≤ ·))
    else sampleLoop f lo fuel (sampleStep f lo s)

/-- The first five candidate numbers of a column: the values the loop
samples at set sizes `0,…,4`. -/
def columnCandidates (f : Nat → Fin 15) (lo : Nat) : List Nat :=
  (List.range 5).map fun k => lo + (f k : Nat)

/-- Assemble the 5×5 grid from the per-column sorted lists and overwrite the
centre with `FREE` (`numbers[2][2] = 'FREE'`). -/
def gridOfCols (ls : Fin 5 → List Nat) : Grid := fun r c =>
  if r = 2 ∧ c = 2 then none else some ((ls c).getD (r : Nat) 0)

/-- `GameEngine.generateCardNumbers` (game-engine.js, lines 82–118) for an
arbitrary sampler `f` and fuel: the whole call succeeds only if every
column's sampling loop terminates within the fuel. -/
def generateCardNumbers (f : Fin 5 → Nat → Fin 15) (fuel : Nat) : Option Grid :=
  if _h : ∀ c : Fin 5, (sampleLoop (f c) (colMin c) fuel []).isSome then
    some (gridOfCols fun c => (sampleLoop (f c) (colMin c) fuel []).getD [])
  else none

/-- The claim of extensional equality between the sine-hash generator and
the modulo-based generator at one card identifier: *some* sampler behaviour
and fuel make `generateCardNumbers` emit exactly the card-manager grid. -/
def sineMatchesModuloAt (n : Nat) : Prop :=
  ∃ f fuel, generateCardNumbers f fuel = some (cmGrid n)

/-- The column invariant of a generated grid: the centre is `FREE`, every
other cell of column `c` holds a number of that column's sub-range, and the
numbers of each column are strictly increasing top-to-bottom (hence pairwise
unique and sorted ascending). -/
def GridColumnInvariant (g : Grid) : Prop :=
  g 2 2 = none ∧
    (∀ r c : Fin 5, ¬(r = 2 ∧ c = 2) →
      ∃ v, g r c = some v ∧ colMin c ≤ v ∧ v ≤ colMax c) ∧
    (∀ c : Fin 5, ∀ r r' : Fin 5, r < r' → ∀ v v',
      g r c = some v → g r' c = some v' → v < v')

/-! ## The pattern matcher (`GameEngine.verifyBingoClaim`, game-engine.js,
lines 470–534, and `Config.isValidBingoPattern`, config.js, lines 311–320)

A cell is marked iff it is `FREE` or its number is in `drawnNumbers`
(`num === 'FREE' || drawnNumbers.includes(num)`). -/

def cellMarked (g : Grid) (drawn : List Nat) (r c : Fin 5) : Bool :=
  match g r c with
  | none => true
  | some v => decide (v ∈ drawn)

/-- `numbers[rowIndex].every(num => num === 'FREE' || drawnNumbers.includes(num))`. -/
def rowMarked (g : Grid) (drawn : List Nat) (r : Fin 5) : Bool :=
  (List.finRange 5).all fun c => cellMarked g drawn r c

/-- The mirrored row index `4 - i` used by the anti-diagonal check. -/
def revIdx (i : Fin 5) : Fin 5 := ⟨4 - (i : Nat), by omega⟩

/-- The five `case 'line_k':` labels of the switch. -/
def lineNames : List String :=
  ["line_1", "line_2", "line_3", "line_4", "line_5"]

/-- `parseInt(pattern.split('_')[1]) - 1`, the row index shared by the five
`line_k` cases, tabulated on the five strings the case labels admit (the
shared body is only ever reached with one of them). -/
def parsedRow (p : String) : Fin 5 :=
  if p = "line_1" then 0
  else if p = "line_2" then 1
  else if p = "line_3" then 2
  else if p = "line_4" then 3
  else if p = "line_5" then 4
  else 0

/-- `GameEngine.verifyBingoClaim` as a pure predicate of the card grid, the
draw history and the pattern name.  The `switch` has cases for
`full_house`, `four_corners`, `line_1`–`line_5`, `diagonal_1` and
`diagonal_2`; every other pattern string — including `column_1`–`column_5` —
falls through to the final `return false`. -/
def verifyBingoClaim (g : Grid) (drawn : List Nat) (pattern : String) : Bool :=
  if pattern = "full_house" then
    (List.finRange 5).all fun r => (List.finRange 5).all fun c =>
      cellMarked g drawn r c
  else if pattern = "four_corners" then
    ([((0 : Fin 5), (0 : Fin 5)), (0, 4), (4, 0), (4, 4)]).all fun rc =>
      cellMarked g drawn rc.1 rc.2
  else if pattern ∈ lineNames then
    rowMarked g drawn (parsedRow pattern)
  else if pattern = "diagonal_1" then
    (List.finRange 5).all fun i => cellMarked g drawn i i
  else if pattern = "diagonal_2" then
    (List.finRange 5).all fun i => cellMarked g drawn i (revIdx i)
  else false

/-- `Config.isValidBingoPattern` (config.js): membership in the flattened
`Config.GAME.BINGO_PATTERNS` family — note that the `column_k` names are in
the list. -/
def isValidBingoPattern (pattern : String) : Bool :=
  pattern ∈ ["line_1", "line_2", "line_3", "line_4", "line_5",
    "column_1", "column_2", "column_3", "column_4", "column_5",
    "diagonal_1", "diagonal_2", "four_corners", "full_house"]

/-- `GameEngine.countMarkedNumbers` (game-engine.js, lines 790–804): count
the cells that are `FREE` or whose number has been drawn. -/
def countMarkedNumbers (g : Grid) (drawn : List Nat) : Nat :=
  ∑ r : Fin 5, ∑ c : Fin 5, if cellMarked g drawn r c then 1 else 0

/-! ## The first engine's mutable state (game-engine.js, lines 2–51)

Only the fields the reset, selection and claim paths touch are modelled.
`gameState.selectedCards` is a `Map` whose keys are decimal strings of card
identifiers (`Object.entries(data.selectedCards)`); `updateTakenCards`
probes it with `has(i.toString())`, and since `i ↦ i.toString()` is
injective the keys are modelled directly as the corresponding numbers. -/

structure GameState1 where
  phase : String
  drawnNumbers : List Nat
  selectedCardsKeys : List Nat
  winner : Option String
  winType : Option String
  prizePool : Nat
  countdown : Nat
deriving DecidableEq

structure PlayerState1 where
  selectedCards : List Nat
deriving DecidableEq

structure CardState1 where
  takenCards : List Nat
  availableCards : List Nat
  cardGrid : List Grid

structure GE1 where
  gameState : GameState1
  playerState : PlayerState1
  cardState : CardState1

/-- `GameEngine.updateTakenCards` (game-engine.js, lines 866–877): rebuild
`takenCards`/`availableCards` from scratch by probing
`gameState.selectedCards` for every card id `1..TOTAL_CARDS` (= 400). -/
def updateTakenCards (s : GE1) : GE1 :=
  { s with cardState :=
    { s.cardState with
      takenCards := (List.range' 1 400).filter
        (fun i => i ∈ s.gameState.selectedCardsKeys)
      availableCards := (List.range' 1 400).filter
        (fun i => i ∉ s.gameState.selectedCardsKeys) } }

/-- `GameEngine.resetForNextGame` (game-engine.js, lines 879–900): clear the
draw history, winner, win type, prize pool and countdown, then
`updateTakenCards()` — which re-derives ownership from the *uncleared*
`gameState.selectedCards` ("keep taken cards until new game starts"). -/
def resetForNextGame (s : GE1) : GE1 :=
  updateTakenCards
    { s with gameState :=
      { s.gameState with
        drawnNumbers := []
        winner := none
        winType := none
        prizePool := 0
        countdown := 0 } }

/-- `GameEngine.selectCard` (game-engine.js, lines 385–426).  `sockOk` is
the boolean returned by `socket.selectCard(cardId)`; on success the
optimistic update adds the card to the player's set. -/
def selectCard (s : GE1) (sockOk : Bool) (cardId : Nat) : Bool × GE1 :=
  if s.gameState.phase ≠ "CARD_SELECTION" then (false, s)
  else if 4 ≤ s.playerState.selectedCards.length then (false, s)
  else if cardId ∈ s.playerState.selectedCards then (false, s)
  else if cardId ∈ s.cardState.takenCards then (false, s)
  else if sockOk then
    (true, { s with playerState :=
      { selectedCards := s.playerState.selectedCards ++ [cardId] } })
  else (false, s)

/-- `GameEngine.claimBingo` (game-engine.js, lines 428–468).  All rejection
paths return `false` without touching the state; a successful claim only
notifies the server. -/
def claimBingo (s : GE1) (sockOk : Bool) (cardId : Nat) (pattern : String) :
    Bool × GE1 :=
  if s.gameState.phase ≠ "ACTIVE" then (false, s)
  else if cardId ∉ s.playerState.selectedCards then (false, s)
  else if isValidBingoPattern pattern = false then (false, s)
  else
    match s.cardState.cardGrid.get? (cardId - 1) with
    | none => (false, s)
    | some g =>
      if verifyBingoClaim g s.gameState.drawnNumbers pattern then
        if sockOk then (true, s) else (false, s)
      else (false, s)

/-- A concrete post-round state for the reset claims: the round has ended
with card 5 still owned (present in `gameState.selectedCards`). -/
def c5State : GE1 :=
  { gameState :=
      { phase := "ENDED"
        drawnNumbers := [7, 31]
        selectedCardsKeys := [5]
        winner := some "u1"
        winType := some "line_1"
        prizePool := 100
        countdown := 0 }
    playerState := { selectedCards := [5] }
    cardState :=
      { takenCards := [5]
        availableCards := (List.range' 1 400).filter (fun i => i ≠ 5)
        cardGrid := [] } }

/-! ## The second engine (game-engine.js, lines 1093–1536)

This class draws numbers itself, marks every loaded card, and collects
*all* `(card, pattern)` completions into `state.winners`; the game ends
only on a `BLACKOUT` completion or after 100 failed sampling attempts. -/

/-- One card cell as pushed by the second engine's `generateCardData`
(lines 1150–1194): `none` is the `'FREE'` cell, which is born marked. -/
structure Cell2 where
  number : Option Nat
  row : Fin 5
  col : Fin 5
  isFreeSpace : Bool
  isMarked : Bool
deriving DecidableEq

def mkCell2 (n : Nat) (c r : Fin 5) : Cell2 :=
  if r = 2 ∧ c = 2 then ⟨none, r, c, true, true⟩
  else
    ⟨some (geGenerateColumnNumber (n * 123456789) n c r (colMin c) (colMax c)),
      r, c, false, false⟩

/-- The cell list of `generateCardData`: columns outer, rows inner. -/
def ge2CardCells (n : Nat) : List Cell2 :=
  (List.finRange 5).flatMap fun c => (List.finRange 5).map fun r => mkCell2 n c r

structure Card2 where
  cardNumber : Nat
  cells : List Cell2
  markedNumbers : List Nat
  patternsCompleted : List String
deriving DecidableEq

/-- `generateCardData` of the second engine: fresh cells, nothing marked or
completed yet. -/
def ge2GenerateCardData (n : Nat) : Card2 := ⟨n, ge2CardCells n, [], []⟩

structure GE2State where
  selectedCards : List Nat
  calledNumbers : List Nat
  calledNumbersHistory : List Nat
  gameStarted : Bool
  gameEnded : Bool
  winners : List (Nat × String)
  cardsData : List Card2
deriving DecidableEq

/-- `CONFIG.BINGO_PATTERNS` (config.js, lines 48–52), loaded by
`initializeWinningPatterns`. -/
def winningPatterns : List String := ["LINE", "FOUR_CORNERS", "BLACKOUT"]

/-- `init(selectedCards)` followed by nothing else: card data generated for
every selected card (`loadCardsData`). -/
def ge2Init (selected : List Nat) : GE2State :=
  ⟨selected, [], [], false, false, [], selected.map ge2GenerateCardData⟩

/-- `startGame` (lines 1222–1233), without the wall-clock bookkeeping. -/
def ge2Start (s : GE2State) : GE2State :=
  if s.gameStarted then s else { s with gameStarted := true }

/-- `endGame` (lines 1427–1438): flips the flags; winners are untouched. -/
def ge2EndGame (s : GE2State) : GE2State :=
  { s with gameEnded := true, gameStarted := false }

/-- `markNumbersOnCards` (lines 1291–1300): mark every cell holding the
drawn number and record the number in the card's `markedNumbers` set. -/
def markNumbersOnCards (num : Nat) (s : GE2State) : GE2State :=
  { s with cardsData := s.cardsData.map fun card =>
    { card with
      cells := card.cells.map fun cell =>
        if cell.number = some num then { cell with isMarked := true } else cell
      markedNumbers :=
        if card.cells.any (fun cell => cell.number = some num) &&
            !(card.markedNumbers.contains num) then
          card.markedNumbers ++ [num]
        else card.markedNumbers } }

/-- `createNumberGrid`'s per-position flag (lines 1406–1418):
`cell.isMarked || cell.isFreeSpace`. -/
def markedAt (card : Card2) (r c : Fin 5) : Bool :=
  card.cells.any fun cell =>
    cell.row = r && cell.col = c && (cell.isMarked || cell.isFreeSpace)

/-- `checkLinePattern` (lines 1351–1388): any complete row, column or
diagonal. -/
def checkLinePattern (card : Card2) : Bool :=
  ((List.finRange 5).any fun r => (List.finRange 5).all fun c => markedAt card r c) ||
  ((List.finRange 5).any fun c => (List.finRange 5).all fun r => markedAt card r c) ||
  ((List.finRange 5).all fun i => markedAt card i i) ||
  ((List.finRange 5).all fun i => markedAt card i (revIdx i))

/-- `checkFourCornersPattern` (lines 1391–1398). -/
def checkFourCornersPattern (card : Card2) : Bool :=
  markedAt card 0 0 && markedAt card 0 4 && markedAt card 4 0 && markedAt card 4 4

/-- `checkBlackoutPattern` (lines 1401–1403): 24 marked numbers. -/
def checkBlackoutPattern (card : Card2) : Bool :=
  card.markedNumbers.length = 24

/-- `checkPattern` (lines 1337–1348). -/
def checkPattern (card : Card2) (pattern : String) : Bool :=
  if pattern = "LINE" then checkLinePattern card
  else if pattern = "FOUR_CORNERS" then checkFourCornersPattern card
  else if pattern = "BLACKOUT" then checkBlackoutPattern card
  else false

/-- The patterns `checkForWinners` newly completes on one card: not yet in
`patternsCompleted` and currently satisfied. -/
def newPatterns (card : Card2) : List String :=
  winningPatterns.filter fun p =>
    ¬ p ∈ card.patternsCompleted ∧ checkPattern card p = true

/-- `shouldEndGame` (lines 1421–1424): some recorded winner has pattern
`BLACKOUT`. -/
def shouldEndGame (s : GE2State) : Bool :=
  s.winners.any fun w => w.2 = "BLACKOUT"

/-- `checkForWinners` (lines 1303–1334): record every `(card, pattern)`
completion not yet in the card's `patternsCompleted`, then end the game if
a blackout was recorded. -/
def checkForWinners (s : GE2State) : GE2State :=
  let batch := s.cardsData.flatMap fun card =>
    (newPatterns card).map fun p => (card.cardNumber, p)
  let s' := { s with
    cardsData := s.cardsData.map fun card =>
      { card with patternsCompleted := card.patternsCompleted ++ newPatterns card }
    winners := s.winners ++ batch }
  if batch.isEmpty then s'
  else if shouldEndGame s' then ge2EndGame s' else s'

/-- `drawNumber` (lines 1236–1279) for an explicit random stream: sample
`Math.floor(Math.random() * 75) + 1` up to 100 times, accept the first
number not yet called, and give up — ending the game — when all 100
samples were already called.  A successful draw is appended to both the
called set and the history, every card is marked, and winners are
checked. -/
def drawNumber (stream : Nat → Fin 75) (s : GE2State) : Option Nat × GE2State :=
  if s.gameStarted = false || s.gameEnded = true then (none, s)
  else
    match (List.range 100).find? (fun i => ¬ ((stream i : Nat) + 1) ∈ s.calledNumbers) with
    | none => (none, ge2EndGame s)
    | some i =>
      let num := (stream i : Nat) + 1
      let s1 := { s with
        calledNumbers := s.calledNumbers ++ [num]
        calledNumbersHistory := s.calledNumbersHistory ++ [num] }
      (some num, checkForWinners (markNumbersOnCards num s1))

/-- Draw with a constant stream (every sample is the same number). -/
def drawConst (v : Fin 75) (s : GE2State) : GE2State :=
  (drawNumber (fun _ => v) s).2

/-- The concrete run for the C3 counterexample: cards 1 and 16 have
identical grids (the modulo generator repeats with period 15 in the card
number), and the five numbers of their shared top row are drawn one by
one. -/
def c3Run : GE2State :=
  drawConst ⟨74, by omega⟩ (drawConst ⟨49, by omega⟩ (drawConst ⟨39, by omega⟩
    (drawConst ⟨29, by omega⟩ (drawConst ⟨4, by omega⟩
      (ge2Start (ge2Init [1, 16]))))))

/-- A started round with number 1 already called and numbers 2–75 still
undrawn, for the C4 counterexample. -/
def c4State : GE2State :=
  { selectedCards := []
    calledNumbers := [1]
    calledNumbersHistory := [1]
    gameStarted := true
    gameEnded := false
    winners := []
    cardsData := [] }

/-! ## Claim C6: the column invariant of generated cards -/

/-- The part of the column invariant the modulo generator does satisfy:
`FREE` centre, in-range values, and pairwise-distinct values per column —
but *not* sortedness. -/
def CmPartialInvariant (g : Grid) : Prop :=
  g 2 2 = none ∧
    (∀ r c : Fin 5, ¬(r = 2 ∧ c = 2) →
      ∃ v, g r c = some v ∧ colMin c ≤ v ∧ v ≤ colMax c) ∧
    (∀ c r r' : Fin 5, r ≠ r' → ∀ v v',
      g r c = some v → g r' c = some v' → v ≠ v')

/-- "Each column's values are sorted ascending top-to-bottom." -/
def columnsSortedAscending (g : Grid) : Prop :=
  ∀ c r r' : Fin 5, r ≤ r' → ∀ v v',
    g r c = some v → g r' c = some v' → v ≤ v'

/-- A concrete sampler whose candidates are `lo, lo+1, …, lo+4` for every
column: card generation terminates on it, and the result satisfies the
invariant. -/
def demoSampler : Fin 5 → Nat → Fin 15 :=
  fun _ k => ⟨k % 15, Nat.mod_lt _ (by omega)⟩

/-! ## Behaviour of the sampling loop -/

theorem sampleLoop_succ (f : Nat → Fin 15) (lo fuel : Nat) (s : List Nat) :
    sampleLoop f lo (fuel + 1) s =
      if 5 ≤ s.length then some (s.insertionSort (· ≤ ·))
      else sampleLoop f lo fuel (sampleStep f lo s) := rfl

theorem length_sampleStep (f : Nat → Fin 15) (lo : Nat) (s : List Nat) :
    (sampleStep f lo s).length ≤ s.length + 1 := by
  unfold sampleStep
  split <;> simp

/-- With too little fuel the loop cannot finish (it needs five insertions
plus a final length check). -/
theorem sampleLoop_none_of_low_fuel (f : Nat → Fin 15) (lo : Nat) :
    ∀ fuel s, fuel + s.length ≤ 5 → sampleLoop f lo fuel s = none := by
  intro fuel
  induction fuel with
  | zero => intro s _; rfl
  | succ n ih =>
    intro s hle
    rw [sampleLoop_succ, if_neg (by omega)]
    exact ih _ (by have := length_sampleStep f lo s; omega)

/-- A duplicate candidate freezes the loop: the candidate only depends on
`s.length`, which an insertion of a duplicate does not change, so the loop
never terminates, whatever the fuel. -/
theorem sampleLoop_none_of_stuck (f : Nat → Fin 15) (lo : Nat) (s : List Nat)
    (hmem : lo + (f s.length : Nat) ∈ s) (hlt : s.length < 5) :
    ∀ fuel, sampleLoop f lo fuel s = none := by
  intro fuel
  induction fuel with
  | zero => rfl
  | succ n ih =>
    rw [sampleLoop_succ, if_neg (by omega)]
    have hstep : sampleStep f lo s = s := by
      unfold sampleStep
      simp only [hmem, if_pos]
    rw [hstep]
    exact ih

theorem columnCandidates_length (f : Nat → Fin 15) (lo : Nat) :
    (columnCandidates f lo).length = 5 := by
  simp [columnCandidates]

theorem columnCandidates_take_succ (f : Nat → Fin 15) (lo : Nat) (j : Nat)
    (hj : j < 5) :
    (columnCandidates f lo).take (j + 1) =
      (columnCandidates f lo).take j ++ [lo + (f j : Nat)] := by
  interval_cases j <;> simp [columnCandidates, List.range_succ]

/-- Running the loop along a duplicate-free prefix of the candidate list
consumes one unit of fuel per insertion. -/
theorem sampleLoop_run (f : Nat → Fin 15) (lo : Nat) :
    ∀ j, j ≤ 5 → ((columnCandidates f lo).take j).Nodup →
      ∀ fuel, sampleLoop f lo (fuel + j) [] =
        sampleLoop f lo fuel ((columnCandidates f lo).take j) := by
  intro j
  induction j with
  | zero => intro _ _ fuel; rfl
  | succ j ih =>
    intro hj hnd fuel
    have htake := columnCandidates_take_succ f lo j (by omega)
    have hndj : ((columnCandidates f lo).take j).Nodup := by
      rw [htake] at hnd
      exact (List.nodup_append.mp hnd).1
    have hlen : ((columnCandidates f lo).take j).length = j := by
      rw [List.length_take, columnCandidates_length]; omega
    have hrun := ih (by omega) hndj (fuel + 1)
    have harith : fuel + (j + 1) = fuel + 1 + j := by omega
    rw [harith, hrun, sampleLoop_succ, if_neg (by omega)]
    have hfresh : lo + (f ((columnCandidates f lo).take j).length : Nat) ∉
        (columnCandidates f lo).take j := by
      rw [hlen]
      rw [htake] at hnd
      have hd := List.nodup_append.mp hnd
      intro hmem
      exact hd.2.2 hmem (by simp)
    have hstep : sampleStep f lo ((columnCandidates f lo).take j) =
        (columnCandidates f lo).take (j + 1) := by
      unfold sampleStep
      rw [if_neg hfresh, hlen, ← htake]
    rw [hstep]

/-- When the five candidates are pairwise distinct the loop terminates with
the sorted candidate list (six iterations suffice, and extra fuel is
harmless). -/
theorem sampleLoop_eq_of_nodup (f : Nat → Fin 15) (lo : Nat)
    (hnd : (columnCandidates f lo).Nodup) (fuel : Nat) :
    sampleLoop f lo (fuel + 6) [] =
      some ((columnCandidates f lo).insertionSort (· ≤ ·)) := by
  have htake : (columnCandidates f lo).take 5 = columnCandidates f lo := by
    rw [List.take_of_length_le (by rw [columnCandidates_length])]
  have hrun := sampleLoop_run f lo 5 (by omega) (by rwa [htake]) (fuel + 1)
  have harith : fuel + 6 = fuel + 1 + 5 := by omega
  rw [harith, hrun, htake, sampleLoop_succ,
    if_pos (by rw [columnCandidates_length])]

/-- When the five candidates contain a duplicate the loop never terminates:
`none` at every fuel. -/
theorem sampleLoop_none_of_dup (f : Nat → Fin 15) (lo : Nat)
    (hnd : ¬ (columnCandidates f lo).Nodup) (fuel : Nat) :
    sampleLoop f lo fuel [] = none := by
  -- find the first prefix that breaks `Nodup`
  have hexists : ∃ j, j < 5 ∧ ((columnCandidates f lo).take j).Nodup ∧
      ¬ ((columnCandidates f lo).take (j + 1)).Nodup := by
    by_contra hno
    push_neg at hno
    have hall : ∀ j, j ≤ 5 → ((columnCandidates f lo).take j).Nodup := by
      intro j
      induction j with
      | zero => intro _; simp
      | succ j ih =>
        intro hj
        exact hno j (by omega) (ih (by omega))
    have := hall 5 (by omega)
    rw [List.take_of_length_le (by rw [columnCandidates_length])] at this
    exact hnd this
  obtain ⟨j, hj5, hndj, hnds⟩ := hexists
  have htake := columnCandidates_take_succ f lo j hj5
  have hlen : ((columnCandidates f lo).take j).length = j := by
    rw [List.length_take, columnCandidates_length]; omega
  have hmem : lo + (f ((columnCandidates f lo).take j).length : Nat) ∈
      (columnCandidates f lo).take j := by
    rw [hlen]
    by_contra hnotmem
    apply hnds
    rw [htake, List.nodup_append]
    refine ⟨hndj, List.nodup_singleton _, ?_⟩
    intro a ha hb
    simp only [List.mem_singleton] at hb
    subst hb
    exact hnotmem ha
  rcases Nat.lt_or_ge fuel j with hlt | hge
  · exact sampleLoop_none_of_low_fuel f lo fuel [] (by simp; omega)
  · obtain ⟨k, rfl⟩ : ∃ k, fuel = k + j := ⟨fuel - j, by omega⟩
    rw [sampleLoop_run f lo j (by omega) hndj k]
    exact sampleLoop_none_of_stuck f lo _ hmem (by omega) k

/-- Any list the sampling loop returns is sorted, duplicate-free, made of
numbers of the column's sub-range, and has exactly five elements. -/
theorem sampleLoop_some_props (f : Nat → Fin 15) (lo : Nat) :
    ∀ fuel s l, s.Nodup → (∀ x ∈ s, lo ≤ x ∧ x ≤ lo + 14) → s.length ≤ 5 →
      sampleLoop f lo fuel s = some l →
      l.Sorted (· ≤ ·) ∧ l.Nodup ∧ (∀ x ∈ l, lo ≤ x ∧ x ≤ lo + 14) ∧
        l.length = 5 := by
  intro fuel
  induction fuel with
  | zero => intro s l _ _ _ h; exact absurd h (by simp [sampleLoop])
  | succ n ih =>
    intro s l hnd hbound hlen h
    rw [sampleLoop_succ] at h
    by_cases hfull : 5 ≤ s.length
    · rw [if_pos hfull, Option.some.injEq] at h
      subst h
      have hperm := List.perm_insertionSort (· ≤ ·) s
      refine ⟨List.sorted_insertionSort _ s, hperm.nodup_iff.mpr hnd, ?_, ?_⟩
      · intro x hx
        exact hbound x (hperm.mem_iff.mp hx)
      · rw [hperm.length_eq]; omega
    · rw [if_neg hfull] at h
      refine ih (sampleStep f lo s) l ?_ ?_ ?_ h
      · unfold sampleStep
        split
        · exact hnd
        · rename_i hc
          rw [List.nodup_append]
          refine ⟨hnd, List.nodup_singleton _, ?_⟩
          intro a ha hb
          simp only [List.mem_singleton] at hb
          subst hb
          exact hc ha
      · intro x hx
        unfold sampleStep at hx
        split at hx
        · exact hbound x hx
        · rcases List.mem_append.mp hx with hx | hx
          · exact hbound x hx
          · simp only [List.mem_singleton] at hx
            subst hx
            have := (f s.length).isLt
            omega
      · have := length_sampleStep f lo s
        omega

theorem colMax_eq (c : Fin 5) : colMax c = colMin c + 14 := by
  simp [colMin, colMax]; omega

/-- Whenever `generateCardNumbers` terminates — for any sampler behaviour —
the resulting grid satisfies the column invariant. -/
theorem generateCardNumbers_invariant (f : Fin 5 → Nat → Fin 15) (fuel : Nat)
    (g : Grid) (h : generateCardNumbers f fuel = some g) :
    GridColumnInvariant g := by
  unfold generateCardNumbers at h
  split at h
  · rename_i hall
    rw [Option.some.injEq] at h
    subst h
    have hcol : ∀ c : Fin 5,
        (((sampleLoop (f c) (colMin c) fuel []).getD []).Sorted (· ≤ ·) ∧
          ((sampleLoop (f c) (colMin c) fuel []).getD []).Nodup) ∧
        (∀ x ∈ (sampleLoop (f c) (colMin c) fuel []).getD [],
          colMin c ≤ x ∧ x ≤ colMin c + 14) ∧
        ((sampleLoop (f c) (colMin c) fuel []).getD []).length = 5 := by
      intro c
      obtain ⟨l, hl⟩ := Option.isSome_iff_exists.mp (hall c)
      have hp := sampleLoop_some_props (f c) (colMin c) fuel [] l
        (by simp) (by simp) (by simp) hl
      rw [hl]
      exact ⟨⟨hp.1, hp.2.1⟩, hp.2.2.1, hp.2.2.2⟩
    refine ⟨by simp [gridOfCols], ?_, ?_⟩
    · intro r c hne
      obtain ⟨⟨hsort, hnd⟩, hbound, hlen⟩ := hcol c
      refine ⟨((sampleLoop (f c) (colMin c) fuel []).getD []).getD (r : Nat) 0,
        ?_, ?_⟩
      · simp [gridOfCols, hne]
      · rw [colMax_eq]
        apply hbound
        rw [List.getD_eq_getElem?_getD, List.getElem?_eq_getElem (by omega)]
        exact List.getElem_mem _
    · intro c r r' hrr v v' hv hv'
      obtain ⟨⟨hsort, hnd⟩, hbound, hlen⟩ := hcol c
      have hstrict := hsort.lt_of_le hnd
      simp only [gridOfCols] at hv hv'
      split at hv
      · exact absurd hv (by simp)
      · split at hv'
        · exact absurd hv' (by simp)
        · rw [Option.some.injEq] at hv hv'
          subst hv hv'
          have hg := hstrict.rel_get_of_lt
            (a := ⟨(r : Nat), by omega⟩) (b := ⟨(r' : Nat), by omega⟩)
            (by simpa using hrr)
          rw [List.getD_eq_getElem?_getD, List.getElem?_eq_getElem (by omega),
            List.getD_eq_getElem?_getD, List.getElem?_eq_getElem (by omega)]
          simpa [List.get_eq_getElem] using hg
  · exact absurd h (by simp)

/-! ## Claim C1: the two generators are not extensionally equal -/

/-- C1 (counterexample). The sine-hash generator of `game-engine.js` can
never produce the modulo-based generator's grid for card 14, whatever the
floating-point sine hash evaluates to: every grid the sine-hash generator
emits has strictly ascending columns, while the modulo grid of card 14 has
`15` above `1` in its B column (the formula wraps around modulo 15).  So the
two generators are not extensionally equal on the identifier range. -/
theorem c1_sine_generator_never_matches_modulo_at_14 :
    sineMatchesModuloAt 14 ↔ False := by
  constructor
  · rintro ⟨f, fuel, hgen⟩
    have hinv := generateCardNumbers_invariant f fuel _ hgen
    have h3 : cmGrid 14 (3 : Fin 5) (0 : Fin 5) = some 15 := by decide
    have h4 : cmGrid 14 (4 : Fin 5) (0 : Fin 5) = some 1 := by decide
    have := hinv.2.2 0 3 4 (by decide) 15 1 h3 h4
    omega
  · exact False.elim

/-- C1 (amended). The modulo-based generator of `card-manager.js` and its
copy in `game-engine.js` (line 1196, "consistent with card-manager") are
extensionally equal: the same column-number formula and the same grid for
every card identifier. -/
theorem c1_modulo_generators_agree :
    (∀ seed cardNumber columnIndex rowIndex rmin rmax : Nat,
      cmGenerateColumnNumber seed cardNumber columnIndex rowIndex rmin rmax =
        geGenerateColumnNumber seed cardNumber columnIndex rowIndex rmin rmax) ∧
    (∀ n : Nat, cmGrid n = geModuloGrid n) :=
  ⟨fun _ _ _ _ _ _ => rfl, fun _ => rfl⟩

/-! ## Claim C2: termination of the sampling loop -/

/-- C2. The spec says the per-column sampling loop terminates "because each
retry perturbs the pseudo-random input".  It does not: the perturbation term
is `columnNumbers.size * 10`, and the size does not change when a duplicate
is added to the set, so as soon as one of a column's five candidate numbers
repeats an earlier one, the loop re-samples the very same input forever and
the whole card generation diverges (returns `none` at every fuel). -/
theorem c2_duplicate_candidate_diverges (f : Fin 5 → Nat → Fin 15)
    (c : Fin 5) (fuel : Nat)
    (hdup : ¬ (columnCandidates (f c) (colMin c)).Nodup) :
    sampleLoop (f c) (colMin c) fuel [] = none ∧
      generateCardNumbers f fuel = none := by
  refine ⟨sampleLoop_none_of_dup (f c) (colMin c) hdup fuel, ?_⟩
  unfold generateCardNumbers
  rw [dif_neg]
  intro hall
  have := hall c
  rw [sampleLoop_none_of_dup (f c) (colMin c) hdup fuel] at this
  exact absurd this (by simp)

/-- Witness for C2 at a concrete sampler: a sampler whose first two
candidates for column B coincide (as the real sine hash does for card 1,
where both candidates are 3) makes the loop and the generator diverge. -/
theorem c2_duplicate_candidate_diverges_witness :
    ¬ (columnCandidates ((fun _ _ => 0 : Fin 5 → Nat → Fin 15) 0) (colMin 0)).Nodup ∧
      sampleLoop ((fun _ _ => 0 : Fin 5 → Nat → Fin 15) 0) (colMin 0) 1000 [] = none ∧
      generateCardNumbers (fun _ _ => 0) 1000 = none := by
  have h : ¬ (columnCandidates ((fun _ _ => 0 : Fin 5 → Nat → Fin 15) 0)
      (colMin 0)).Nodup := by decide
  exact ⟨h, c2_duplicate_candidate_diverges (fun _ _ => 0) 0 1000 h⟩

theorem verify_default_false (g : Grid) (drawn : List Nat) (p : String)
    (h1 : p ≠ "full_house") (h2 : p ≠ "four_corners") (h3 : p ∉ lineNames)
    (h4 : p ≠ "diagonal_1") (h5 : p ≠ "diagonal_2") :
    verifyBingoClaim g drawn p = false := by
  unfold verifyBingoClaim
  rw [if_neg h1, if_neg h2, if_neg h3, if_neg h4, if_neg h5]

theorem rowMarked_eq_true_iff (g : Grid) (drawn : List Nat) (r : Fin 5) :
    rowMarked g drawn r = true ↔ ∀ c : Fin 5, cellMarked g drawn r c = true := by
  simp [rowMarked, List.all_eq_true, List.mem_finRange]

/-! ## Claim C7: the `column_k` patterns -/

/-- C7 (counterexample).  For card 1's grid with all of column B drawn,
every cell of column 1 is marked and `column_1` passes the pattern-name
validator, yet `verifyBingoClaim` still answers `false`: the switch has no
`column_k` case and falls through to `return false`. -/
theorem c7_column_pattern_counterexample :
    verifyBingoClaim (cmGrid 1) [5, 6, 7, 8, 9] "column_1" = false ∧
      ((List.finRange 5).all fun r =>
        cellMarked (cmGrid 1) [5, 6, 7, 8, 9] r 0) = true ∧
      isValidBingoPattern "column_1" = true := by
  decide

/-- C7 (amended).  `column_k` is accepted as a pattern name by
`Config.isValidBingoPattern`, but `GameEngine.verifyBingoClaim` rejects it
unconditionally: for every card grid and every draw history the check
returns `false`, marked column or not. -/
theorem c7_column_patterns_always_rejected (g : Grid) (drawn : List Nat)
    (p : String)
    (hp : p ∈ ["column_1", "column_2", "column_3", "column_4", "column_5"]) :
    verifyBingoClaim g drawn p = false ∧ isValidBingoPattern p = true := by
  fin_cases hp <;>
    exact ⟨verify_default_false _ _ _ (by decide) (by decide) (by decide)
      (by decide) (by decide), by decide⟩

/-- Witness for C7 at a concrete pattern name. -/
theorem c7_column_patterns_always_rejected_witness :
    verifyBingoClaim (cmGrid 2) [] "column_2" = false ∧
      isValidBingoPattern "column_2" = true :=
  c7_column_patterns_always_rejected (cmGrid 2) [] "column_2" (by decide)

/-! ## Claim C8: the `line_k` patterns -/

/-- C8.  For every card grid, every draw history and every `line_k`,
`verifyBingoClaim` answers `true` exactly when all five cells of row `k-1`
are marked (`FREE` counts as marked); in particular one unmarked cell in
the row forces `false`. -/
theorem c8_line_pattern_iff (g : Grid) (drawn : List Nat) (p : String)
    (r : Fin 5)
    (hp : (p, r) ∈ [("line_1", (0 : Fin 5)), ("line_2", 1), ("line_3", 2),
      ("line_4", 3), ("line_5", 4)]) :
    (verifyBingoClaim g drawn p = true ↔
      ∀ c : Fin 5, cellMarked g drawn r c = true) ∧
    (∀ c : Fin 5, cellMarked g drawn r c = false →
      verifyBingoClaim g drawn p = false) := by
  have key : ∀ r' : Fin 5, verifyBingoClaim g drawn p = rowMarked g drawn r' →
      (verifyBingoClaim g drawn p = true ↔
        ∀ c : Fin 5, cellMarked g drawn r' c = true) ∧
      (∀ c : Fin 5, cellMarked g drawn r' c = false →
        verifyBingoClaim g drawn p = false) := by
    intro r' heq
    constructor
    · rw [heq]
      exact rowMarked_eq_true_iff g drawn r'
    · intro c hc
      rw [heq]
      cases hrow : rowMarked g drawn r' with
      | false => rfl
      | true =>
        have := (rowMarked_eq_true_iff g drawn r').mp hrow c
        rw [this] at hc
        exact absurd hc (by simp)
  fin_cases hp <;>
  · apply key
    unfold verifyBingoClaim
    rw [if_neg (by decide), if_neg (by decide), if_pos (by decide)]
    rfl

/-- Witness for C8: on card 1's grid, drawing all of row 0 satisfies
`line_1`, and leaving out the row's O-column number (75) refutes it. -/
theorem c8_line_pattern_iff_witness :
    verifyBingoClaim (cmGrid 1) [5, 30, 40, 50, 75] "line_1" = true ∧
      verifyBingoClaim (cmGrid 1) [5, 30, 40, 50] "line_1" = false := by
  have h := c8_line_pattern_iff (cmGrid 1) [5, 30, 40, 50, 75] "line_1" 0
    (by decide)
  have h' := c8_line_pattern_iff (cmGrid 1) [5, 30, 40, 50] "line_1" 0
    (by decide)
  exact ⟨h.1.mpr (by decide), h'.2 4 (by decide)⟩

/-! ## Claim C10: monotonicity in the drawn set -/

theorem cellMarked_mono (g : Grid) (d d' : List Nat) (r c : Fin 5)
    (hsub : d ⊆ d') (h : cellMarked g d r c = true) :
    cellMarked g d' r c = true := by
  unfold cellMarked at h ⊢
  cases hg : g r c with
  | none => rfl
  | some v =>
    rw [hg] at h
    exact decide_eq_true (hsub (of_decide_eq_true h))

theorem all_mono {α : Type} (l : List α) (p q : α → Bool)
    (h : ∀ x, p x = true → q x = true) (hl : l.all p = true) :
    l.all q = true := by
  rw [List.all_eq_true] at hl ⊢
  intro x hx
  exact h x (hl x hx)

/-- C10.  Growing the draw history can only help: pattern satisfaction is
monotone for every pattern name, the marked-cell count is monotone, and the
count always lies between 1 (a grid with the `FREE` centre) and 25. -/
theorem c10_pattern_and_count_monotone (g : Grid) (d d' : List Nat)
    (hsub : d ⊆ d') :
    (∀ p : String, verifyBingoClaim g d p = true →
      verifyBingoClaim g d' p = true) ∧
    countMarkedNumbers g d ≤ countMarkedNumbers g d' ∧
    (g 2 2 = none → 1 ≤ countMarkedNumbers g d) ∧
    countMarkedNumbers g d ≤ 25 := by
  refine ⟨?_, ?_, ?_, ?_⟩
  · intro p hp
    unfold verifyBingoClaim at hp ⊢
    split_ifs at hp ⊢ with h1 h2 h3 h4 h5
    · exact all_mono _ _ _
        (fun r => all_mono _ _ _ (fun c => cellMarked_mono g d d' r c hsub)) hp
    · exact all_mono _ _ _
        (fun rc => cellMarked_mono g d d' rc.1 rc.2 hsub) hp
    · unfold rowMarked at hp ⊢
      exact all_mono _ _ _
        (fun c => cellMarked_mono g d d' (parsedRow p) c hsub) hp
    · exact all_mono _ _ _ (fun i => cellMarked_mono g d d' i i hsub) hp
    · exact all_mono _ _ _
        (fun i => cellMarked_mono g d d' i (revIdx i) hsub) hp
  · unfold countMarkedNumbers
    refine Finset.sum_le_sum fun r _ => Finset.sum_le_sum fun c _ => ?_
    by_cases h : cellMarked g d r c = true
    · rw [h, cellMarked_mono g d d' r c hsub h]
    · rw [Bool.not_eq_true] at h
      rw [h]
      simp
  · intro hfree
    have hm : cellMarked g d 2 2 = true := by
      unfold cellMarked
      rw [hfree]
    unfold countMarkedNumbers
    have hinner : 1 ≤ ∑ c : Fin 5, if cellMarked g d 2 c then 1 else 0 := by
      simpa [hm] using Finset.single_le_sum
        (f := fun c : Fin 5 => if cellMarked g d 2 c then 1 else 0)
        (fun i _ => Nat.zero_le _) (Finset.mem_univ (2 : Fin 5))
    refine le_trans hinner ?_
    simpa using Finset.single_le_sum
      (f := fun r : Fin 5 => ∑ c : Fin 5, if cellMarked g d r c then 1 else 0)
      (fun i _ => Nat.zero_le _) (Finset.mem_univ (2 : Fin 5))
  · unfold countMarkedNumbers
    have hbound : ∀ r : Fin 5,
        (∑ c : Fin 5, if cellMarked g d r c then 1 else 0) ≤ 5 := by
      intro r
      calc (∑ c : Fin 5, if cellMarked g d r c then 1 else 0)
          ≤ ∑ _c : Fin 5, 1 := Finset.sum_le_sum fun c _ => by split <;> omega
        _ = 5 := by simp
    calc (∑ r : Fin 5, ∑ c : Fin 5, if cellMarked g d r c then 1 else 0)
        ≤ ∑ _r : Fin 5, 5 := Finset.sum_le_sum fun r _ => hbound r
      _ = 25 := by simp

/-- Witness for C10 at concrete draw histories on card 1's grid. -/
theorem c10_pattern_and_count_monotone_witness :
    countMarkedNumbers (cmGrid 1) [5] ≤ countMarkedNumbers (cmGrid 1) [5, 30] ∧
      1 ≤ countMarkedNumbers (cmGrid 1) [5] ∧
      countMarkedNumbers (cmGrid 1) [5] ≤ 25 ∧
      verifyBingoClaim (cmGrid 1) [5, 30, 40, 50, 75, 1] "line_1" = true := by
  have h := c10_pattern_and_count_monotone (cmGrid 1) [5] [5, 30]
    (by intro x hx; simp at hx; simp [hx])
  have h' := c10_pattern_and_count_monotone (cmGrid 1) [5, 30, 40, 50, 75]
    [5, 30, 40, 50, 75, 1] (by intro x hx; simp at hx; rcases hx with h|h|h|h|h <;> simp [h])
  exact ⟨h.2.1, h.2.2.1 (by decide), h.2.2.2, h'.1 "line_1" (by decide)⟩

/-! ## Claim C5: reset after a round -/

set_option maxRecDepth 8192 in
/-- C5 (counterexample).  After `resetForNextGame` on a state whose
`gameState.selectedCards` still holds card 5, the draw history and winner
are cleared, but the registry still reports card 5 as taken and not
available: ownership is *not* released by the reset. -/
theorem c5_reset_keeps_ownership_counterexample :
    (resetForNextGame c5State).gameState.drawnNumbers = [] ∧
      (resetForNextGame c5State).gameState.winner = none ∧
      (resetForNextGame c5State).cardState.takenCards = [5] ∧
      (5 ∈ (resetForNextGame c5State).cardState.availableCards) = False ∧
      (resetForNextGame c5State).cardState.availableCards.length = 399 := by
  decide

/-- C5 (amended).  `resetForNextGame` clears the draw history, winner, win
type, prize pool and countdown, but recomputes the registry from the
*uncleared* `gameState.selectedCards`: after the reset a card id in
`1..400` is taken iff it is among the selected-cards keys, and available
iff it is not; all 400 cards are available only for an empty map. -/
theorem c5_reset_properties (s : GE1) :
    (resetForNextGame s).gameState.drawnNumbers = [] ∧
      (resetForNextGame s).gameState.winner = none ∧
      (resetForNextGame s).gameState.winType = none ∧
      (resetForNextGame s).gameState.selectedCardsKeys =
        s.gameState.selectedCardsKeys ∧
      (∀ i, i ∈ (resetForNextGame s).cardState.takenCards ↔
        i ∈ List.range' 1 400 ∧ i ∈ s.gameState.selectedCardsKeys) ∧
      (∀ i, i ∈ (resetForNextGame s).cardState.availableCards ↔
        i ∈ List.range' 1 400 ∧ i ∉ s.gameState.selectedCardsKeys) ∧
      (resetForNextGame
          { s with gameState :=
            { s.gameState with selectedCardsKeys := [] } }).cardState.availableCards =
        List.range' 1 400 := by
  refine ⟨rfl, rfl, rfl, rfl, ?_, ?_, ?_⟩
  · intro i
    simp [resetForNextGame, updateTakenCards, List.mem_filter]
  · intro i
    simp [resetForNextGame, updateTakenCards, List.mem_filter]
  · simp [resetForNextGame, updateTakenCards]

/-! ## Claim C9: rejected requests do not mutate state -/

/-- C9.  A card selection outside the `CARD_SELECTION` phase, for a taken
card, or at the per-player maximum of 4 cards returns `false` with the
state untouched; a bingo claim outside the `ACTIVE` phase, for a card the
player does not own, or whose pattern does not currently verify returns
`false` with the state untouched. -/
theorem c9_rejections_do_not_mutate (s : GE1) (sockOk : Bool) (cardId : Nat)
    (pattern : String) :
    ((s.gameState.phase ≠ "CARD_SELECTION" ∨ cardId ∈ s.cardState.takenCards ∨
        4 ≤ s.playerState.selectedCards.length) →
      selectCard s sockOk cardId = (false, s)) ∧
    ((s.gameState.phase ≠ "ACTIVE" ∨ cardId ∉ s.playerState.selectedCards ∨
        (∀ g, s.cardState.cardGrid.get? (cardId - 1) = some g →
          verifyBingoClaim g s.gameState.drawnNumbers pattern = false)) →
      claimBingo s sockOk cardId pattern = (false, s)) := by
  constructor
  · intro hrej
    unfold selectCard
    split_ifs with h1 h2 h3 h4 h5 <;> try rfl
    · exact absurd hrej (by tauto)
  · intro hrej
    unfold claimBingo
    by_cases h1 : s.gameState.phase ≠ "ACTIVE"
    · rw [if_pos h1]
    · rw [if_neg h1]
      by_cases h2 : cardId ∉ s.playerState.selectedCards
      · rw [if_pos h2]
      · rw [if_neg h2]
        by_cases h3 : isValidBingoPattern pattern = false
        · rw [if_pos h3]
        · rw [if_neg h3]
          rcases hm : s.cardState.cardGrid.get? (cardId - 1) with _ | g
          · simp only [hm]
          · simp only [hm]
            have hverify :
                verifyBingoClaim g s.gameState.drawnNumbers pattern = false := by
              rcases hrej with h | h | h
              · exact absurd h h1
              · exact absurd h h2
              · exact h g hm
            rw [hverify]
            simp

/-- Witness for C9 at concrete rejected requests: a selection attempted
while the game is `ACTIVE`, and a claim attempted while the game is in
`CARD_SELECTION`. -/
theorem c9_rejections_do_not_mutate_witness :
    selectCard c5State true 7 = (false, c5State) ∧
      claimBingo c5State true 5 "line_1" = (false, c5State) :=
  ⟨(c9_rejections_do_not_mutate c5State true 7 "line_1").1 (Or.inl (by decide)),
    (c9_rejections_do_not_mutate c5State true 5 "line_1").2 (Or.inl (by decide))⟩

theorem markNumbersOnCards_calledNumbers (num : Nat) (s : GE2State) :
    (markNumbersOnCards num s).calledNumbers = s.calledNumbers := rfl

theorem markNumbersOnCards_calledNumbersHistory (num : Nat) (s : GE2State) :
    (markNumbersOnCards num s).calledNumbersHistory =
      s.calledNumbersHistory := rfl

theorem checkForWinners_calledNumbers (s : GE2State) :
    (checkForWinners s).calledNumbers = s.calledNumbers := by
  unfold checkForWinners
  dsimp only
  split
  · rfl
  · split <;> rfl

theorem checkForWinners_calledNumbersHistory (s : GE2State) :
    (checkForWinners s).calledNumbersHistory = s.calledNumbersHistory := by
  unfold checkForWinners
  dsimp only
  split
  · rfl
  · split <;> rfl

theorem checkForWinners_winners (s : GE2State) :
    (checkForWinners s).winners = s.winners ++
      (s.cardsData.flatMap fun card =>
        (newPatterns card).map fun p => (card.cardNumber, p)) := by
  unfold checkForWinners
  dsimp only
  split
  · rfl
  · split <;> rfl

/-! ## Claim C3: winner recording -/

set_option maxRecDepth 20000 in
/-- C3 (counterexample).  Cards 1 and 16 get identical grids from the
modulo generator, so after the five numbers of their shared top row are
drawn, `checkForWinners` records *two* winner entries in the same round —
the winners record grows past one entry, no claim is rejected, and the
round does not even end (`LINE` is not `BLACKOUT`). -/
theorem c3_two_winners_counterexample :
    c3Run.winners = [(1, "LINE"), (16, "LINE")] ∧
      1 < c3Run.winners.length ∧ c3Run.gameEnded = false := by
  decide

/-- C3 (amended).  The engine records every `(card, pattern)` completion
rather than a single winner: once the game has ended `drawNumber` is a
no-op returning `null`, and a winner entry is only ever added for a pattern
not already in its card's `patternsCompleted` — so the same `(card,
pattern)` pair is never recorded twice, but distinct cards (or distinct
patterns on one card) can all be recorded in one round.  No
`RoundAlreadyDecided` rejection exists. -/
theorem c3_winner_recording (stream : Nat → Fin 75) (s : GE2State) :
    (s.gameEnded = true → drawNumber stream s = (none, s)) ∧
    (∀ n p, (n, p) ∈ (checkForWinners s).winners →
      (n, p) ∈ s.winners ∨ ∃ card, card ∈ s.cardsData ∧
        card.cardNumber = n ∧ p ∉ card.patternsCompleted ∧
        checkPattern card p = true) := by
  constructor
  · intro hend
    unfold drawNumber
    rw [if_pos (by simp [hend])]
  · intro n p hmem
    rw [checkForWinners_winners] at hmem
    rcases List.mem_append.mp hmem with h | h
    · exact Or.inl h
    · right
      obtain ⟨card, hcard, hp⟩ := List.mem_flatMap.mp h
      obtain ⟨p', hp', heq⟩ := List.mem_map.mp hp
      obtain ⟨heq1, heq2⟩ := Prod.mk.injEq .. ▸ heq
      subst heq1
      subst heq2
      have := List.mem_filter.mp hp'
      refine ⟨card, hcard, rfl, ?_, ?_⟩
      · intro hc
        have := of_decide_eq_true this.2
        exact this.1 hc
      · exact (of_decide_eq_true this.2).2

/-- Witness for C3: on an already-ended round a draw changes nothing and
reports no number. -/
theorem c3_winner_recording_witness :
    drawNumber (fun _ => ⟨0, by omega⟩) (ge2EndGame (ge2Init [])) =
      (none, ge2EndGame (ge2Init [])) :=
  (c3_winner_recording (fun _ => ⟨0, by omega⟩) (ge2EndGame (ge2Init []))).1 rfl

/-! ## Claim C4: the number drawer -/

/-- C4 (counterexample).  `drawNumber` does not test whether the called set
covers `[1, 75]`; it gives up after 100 samples that all hit already-called
numbers.  With only the number 1 called — so 2–75 are still undrawn — a
random stream that keeps returning 1 makes the call end the round instead
of producing an undrawn number. -/
theorem c4_premature_exhaustion_counterexample :
    drawNumber (fun _ => ⟨0, by omega⟩) c4State = (none, ge2EndGame c4State) ∧
      (2 ∈ c4State.calledNumbers) = False ∧
      (ge2EndGame c4State).gameEnded = true := by
  decide

/-- C4 (amended).  On a started, unfinished round: if the called set covers
all of `[1, 75]` every sample hits it, so the draw returns `null` and force-
ends the round; and any successful draw returns a number in `[1, 75]` that
was not yet called, appends exactly it to both the called set and the
history, and preserves their duplicate-freeness.  (Exhaustion of the range
is sufficient for the round to end, but — see the counterexample — not
necessary: 100 failed samples also end it.) -/
theorem c4_draw_properties (stream : Nat → Fin 75) (s : GE2State)
    (hstarted : s.gameStarted = true) (hended : s.gameEnded = false) :
    ((∀ m, 1 ≤ m → m ≤ 75 → m ∈ s.calledNumbers) →
      drawNumber stream s = (none, ge2EndGame s)) ∧
    (∀ num, (drawNumber stream s).1 = some num →
      1 ≤ num ∧ num ≤ 75 ∧ num ∉ s.calledNumbers ∧
      (drawNumber stream s).2.calledNumbers = s.calledNumbers ++ [num] ∧
      (drawNumber stream s).2.calledNumbersHistory =
        s.calledNumbersHistory ++ [num] ∧
      (s.calledNumbers.Nodup → (drawNumber stream s).2.calledNumbers.Nodup)) := by
  have hguard : (decide (s.gameStarted = false) || decide (s.gameEnded = true)) ≠ true := by
    simp [hstarted, hended]
  constructor
  · intro hfull
    unfold drawNumber
    rw [if_neg hguard]
    have hfind : (List.range 100).find?
        (fun i => ¬ ((stream i : Nat) + 1) ∈ s.calledNumbers) = none := by
      rw [List.find?_eq_none]
      intro i _
      simp only [decide_eq_true_eq, Decidable.not_not]
      exact hfull _ (by omega) (by have := (stream i).isLt; omega)
    rw [hfind]
  · intro num hsome
    unfold drawNumber at hsome ⊢
    rw [if_neg hguard] at hsome ⊢
    rcases hfind : (List.range 100).find?
        (fun i => ¬ ((stream i : Nat) + 1) ∈ s.calledNumbers) with _ | i
    · rw [hfind] at hsome
      exact absurd hsome (by simp)
    · rw [hfind] at hsome
      dsimp only at hsome ⊢
      simp only [Option.some.injEq] at hsome
      have hfresh : ((stream i : Nat) + 1) ∉ s.calledNumbers := by
        have := List.find?_some hfind
        simpa using this
      subst hsome
      have hlt := (stream i).isLt
      refine ⟨by omega, by omega, hfresh, ?_, ?_, ?_⟩
      · rw [checkForWinners_calledNumbers, markNumbersOnCards_calledNumbers]
      · rw [checkForWinners_calledNumbersHistory,
          markNumbersOnCards_calledNumbersHistory]
      · intro hnd
        rw [checkForWinners_calledNumbers, markNumbersOnCards_calledNumbers,
          List.nodup_append]
        refine ⟨hnd, List.nodup_singleton _, ?_⟩
        intro a ha hb
        simp only [List.mem_singleton] at hb
        subst hb
        exact hfresh ha

/-- Witness for C4 on a fully-drawn round and on a successful draw. -/
theorem c4_draw_properties_witness :
    drawNumber (fun _ => ⟨0, by omega⟩)
        { c4State with calledNumbers := List.range' 1 75 } =
      (none, ge2EndGame { c4State with calledNumbers := List.range' 1 75 }) ∧
      (drawNumber (fun _ => ⟨4, by omega⟩) c4State).2.calledNumbers = [1, 5] := by
  constructor
  · exact (c4_draw_properties (fun _ => ⟨0, by omega⟩)
      { c4State with calledNumbers := List.range' 1 75 } rfl rfl).1
      (by intro m h1 h75; rw [List.mem_range'_1]; omega)
  · have h := (c4_draw_properties (fun _ => ⟨4, by omega⟩) c4State rfl rfl).2 5
      (by decide)
    exact h.2.2.2.1

/-- C6 (counterexample).  The card-manager generator violates the
sorted-ascending column invariant: card 14's B column reads
`12, 13, 14, 15, 1` top-to-bottom (the `% 15` wraps), with `15` in row 3
above `1` in row 4. -/
theorem c6_cm_grid_unsorted_counterexample :
    columnsSortedAscending (cmGrid 14) ↔ False := by
  constructor
  · intro h
    have := h 0 3 4 (by decide) 15 1 (by decide) (by decide)
    omega
  · exact False.elim

/-- C6 (amended).  Grids produced by the sine-hash generator (whenever it
terminates, for any sampler behaviour) satisfy the full column invariant —
unique, sorted ascending, in the column's sub-range, `FREE` centre.
Grids of the modulo-based card-manager generator have the `FREE` centre and
unique in-range column values, but their columns are not always sorted. -/
theorem c6_column_invariants :
    (∀ (f : Fin 5 → Nat → Fin 15) (fuel : Nat) (g : Grid),
      generateCardNumbers f fuel = some g → GridColumnInvariant g) ∧
    (∀ n : Nat, CmPartialInvariant (cmGrid n)) := by
  refine ⟨fun f fuel g h => generateCardNumbers_invariant f fuel g h, ?_⟩
  intro n
  refine ⟨by simp [cmGrid], ?_, ?_⟩
  · intro r c hne
    refine ⟨cmGenerateColumnNumber (n * 123456789) n c r (colMin c) (colMax c),
      by simp [cmGrid, hne], ?_, ?_⟩
    · unfold cmGenerateColumnNumber
      omega
    · unfold cmGenerateColumnNumber
      have h14 := colMax_eq c
      have hmod : (n * 123456789 + n * 100 + (c : Nat) * 10 + (r : Nat)) %
          (colMax c - colMin c + 1) < 15 := by
        rw [h14]
        have : colMin c + 14 - colMin c + 1 = 15 := by omega
        rw [this]
        omega
      omega
  · intro c r r' hne v v' hv hv'
    have hr := r.isLt
    have hr' := r'.isLt
    have hvalne : (r : Nat) ≠ (r' : Nat) := fun h => hne (Fin.ext h)
    unfold cmGrid at hv hv'
    by_cases h2 : r = 2 ∧ c = 2
    · rw [if_pos h2] at hv
      exact absurd hv (by simp)
    · rw [if_neg h2] at hv
      by_cases h2' : r' = 2 ∧ c = 2
      · rw [if_pos h2'] at hv'
        exact absurd hv' (by simp)
      · rw [if_neg h2'] at hv'
        rw [Option.some.injEq] at hv hv'
        subst hv hv'
        unfold cmGenerateColumnNumber
        have h14 := colMax_eq c
        have h15 : colMax c - colMin c + 1 = 15 := by omega
        rw [h15]
        intro heq
        omega

/-- Witness for C6 at a concrete sampler and card. -/
theorem c6_column_invariants_witness :
    GridColumnInvariant (gridOfCols fun c =>
      (sampleLoop (demoSampler c) (colMin c) 6 []).getD []) ∧
      CmPartialInvariant (cmGrid 1) :=
  ⟨c6_column_invariants.1 demoSampler 6 _ rfl, c6_column_invariants.2 1⟩

end Bingo
